import Mathlib

/-!
Shallow embedding of the multi-task DeepLabV3+ model with branched
self-attention (`mtl/models/model_parts.py`, `mtl/models/model_attention.py`).

Tensors are modelled at several levels of abstraction, each matching what the
claim under scrutiny is about:
* a shape level (`Shape4`, with PyTorch layer shape semantics as partial
  functions `Shape4 → Option Shape4`, `none` = runtime error),
* a dataflow level (`FExpr`, expression trees recording which tensor flows
  where),
* a value level (`Tensor4`, real-valued 4D tensors with an exact convolution),
* a channel level (channel axes as lists, for the concat/split round trip),
* the encoder's skip dictionary (association lists with Python dict
  semantics).
-/

/-- The shape (batch, channels, height, width) of a 4D tensor. -/
structure Shape4 where
  n : Nat
  c : Nat
  h : Nat
  w : Nat
deriving DecidableEq, Repr

/-- Output size of one spatial dimension of `torch.nn.Conv2d`:
`(size + 2*padding - dilation*(kernel-1) - 1) / stride + 1`, and `none`
(a runtime error) when the kernel, stride or dilation is invalid or the
output would be empty. -/
def convOutDim (size k s p d : Nat) : Option Nat :=
  if 1 ≤ k ∧ 1 ≤ s ∧ 1 ≤ d ∧ d * (k - 1) + 1 ≤ size + 2 * p then
    some ((size + 2 * p - (d * (k - 1) + 1)) / s + 1)
  else
    none

/-- Shape semantics of `torch.nn.Conv2d(cin, cout, k, s, p, d)`: the input
channel count must match `cin` and both output dimensions must be nonempty. -/
def conv2dShape (cin cout k s p d : Nat) (x : Shape4) : Option Shape4 :=
  if x.c = cin then
    match convOutDim x.h k s p d, convOutDim x.w k s p d with
    | some oh, some ow => some ⟨x.n, cout, oh, ow⟩
    | _, _ => none
  else
    none

/-- Shape semantics of `torch.nn.BatchNorm2d(ch)`: channel count must match,
shape is preserved (ReLU also preserves shape and is omitted). -/
def batchNorm2dShape (ch : Nat) (x : Shape4) : Option Shape4 :=
  if x.c = ch then some x else none

/-- Shape semantics of a `Conv2d → BatchNorm2d → ReLU` sequential block
(the `ASPPpart` class, and the `conv1x1_skip` / `conv3x3_final*` blocks). -/
def asppPartShape (cin cout k s p d : Nat) (x : Shape4) : Option Shape4 :=
  (conv2dShape cin cout k s p d x).bind (batchNorm2dShape cout)

/-- Shape semantics of `torch.nn.AvgPool2d` with kernel `(kh, kw)`, stride
`(sh, sw)` and no padding. -/
def avgPool2dShape (kh kw sh sw : Nat) (x : Shape4) : Option Shape4 :=
  if 1 ≤ kh ∧ 1 ≤ kw ∧ 1 ≤ sh ∧ 1 ≤ sw ∧ kh ≤ x.h ∧ kw ≤ x.w then
    some ⟨x.n, x.c, (x.h - kh) / sh + 1, (x.w - kw) / sw + 1⟩
  else
    none

/-- Shape semantics of `torch.nn.functional.interpolate(x, size=(th, tw))`:
spatial size becomes the target, batch and channels are preserved. -/
def interpolateShape (th tw : Nat) (x : Shape4) : Shape4 :=
  ⟨x.n, x.c, th, tw⟩

/-- Shape semantics of `torch.cat([a, b], dim=1)`: all non-channel dimensions
must agree, the channel counts add. -/
def catChannels (a b : Shape4) : Option Shape4 :=
  if a.n = b.n ∧ a.h = b.h ∧ a.w = b.w then
    some ⟨a.n, a.c + b.c, a.h, a.w⟩
  else
    none

/-- One dimension of PyTorch broadcasting: sizes agree, or one of them is 1. -/
def broadcastDim (a b : Nat) : Option Nat :=
  if a = b then some a
  else if a = 1 then some b
  else if b = 1 then some a
  else none

/-- Shape semantics of elementwise binary operations (`+`, `*`) on two 4D
tensors under PyTorch broadcasting; `none` is the runtime shape error. -/
def broadcastShape (a b : Shape4) : Option Shape4 :=
  match broadcastDim a.n b.n, broadcastDim a.c b.c,
        broadcastDim a.h b.h, broadcastDim a.w b.w with
  | some n, some c, some h, some w => some ⟨n, c, h, w⟩
  | _, _, _, _ => none

/-- Two 4D shapes are broadcast-compatible: in every dimension the sizes agree
or one of them is 1. -/
def Broadcastable (a b : Shape4) : Prop :=
  (a.n = b.n ∨ a.n = 1 ∨ b.n = 1) ∧ (a.c = b.c ∨ a.c = 1 ∨ b.c = 1) ∧
  (a.h = b.h ∨ a.h = 1 ∨ b.h = 1) ∧ (a.w = b.w ∨ a.w = 1 ∨ b.w = 1)

instance (a b : Shape4) : Decidable (Broadcastable a b) := by
  unfold Broadcastable; infer_instance

/-- Shape semantics of `ASPP.forward` (`model_parts.py` lines 182-195), for an
`ASPP(in_channels=cin, out_channels=cout, rates=(r1, r2, r3))` module: four
parallel convolution branches, a global-average-pool branch (the pooling
kernel is set to the input's spatial size at call time while the stride stays
at the construction-time value 1; `conv1x1_global` has kernel 1 and padding
1), channel concatenation of the five branches, and a final 1x1 fusion. -/
def ASPP.forwardShape (cin cout r1 r2 r3 : Nat) (x : Shape4) : Option Shape4 := do
  let conv1x1 ← asppPartShape cin cout 1 1 0 1 x
  let conv3x3_1 ← asppPartShape cin cout 3 1 r1 r1 x
  let conv3x3_2 ← asppPartShape cin cout 3 1 r2 r2 x
  let conv3x3_3 ← asppPartShape cin cout 3 1 r3 r3 x
  let pooled ← avgPool2dShape x.h x.w 1 1 x
  let global1 ← asppPartShape cin cout 1 1 1 1 pooled
  let global_feat := interpolateShape x.h x.w global1
  let cat1 ← catChannels conv1x1 conv3x3_1
  let cat2 ← catChannels cat1 conv3x3_2
  let cat3 ← catChannels cat2 conv3x3_3
  let feature_cat ← catChannels cat3 global_feat
  asppPartShape (cout * 5) cout 1 1 0 1 feature_cat

/-- Shape semantics of `SelfAttention.forward` (`model_parts.py` lines
206-209), for a `SelfAttention(in_channels=cin, out_channels=cout)` module:
two parallel 3x3 convolutions with padding 1 (`conv` and `attention`, the
latter followed by a shape-preserving sigmoid), combined by elementwise
multiplication. -/
def SelfAttention.forwardShape (cin cout : Nat) (x : Shape4) : Option Shape4 := do
  let features ← conv2dShape cin cout 3 1 1 1 x
  let attention_mask ← conv2dShape cin cout 3 1 1 1 x
  broadcastShape features attention_mask

/-- Shape semantics of the stages of `DecoderDistillation.forward`
(`model_parts.py` lines 255-269) up to, but not including, the final
projection `conv3x3_final3`: elementwise addition of the two inputs
(PyTorch broadcasting, no assertion), `conv3x3_final1` (3x3, padding 1,
`in_channels → in_channels // 2`) with batch norm and ReLU, bilinear
2x upsampling, `conv3x3_final2` (`in_channels // 2 → in_channels // 4`)
with batch norm and ReLU, bilinear 2x upsampling. -/
def DecoderDistillation.preProjShape (in_channels : Nat) (features_low features_sa : Shape4) :
    Option Shape4 := do
  let a ← broadcastShape features_low features_sa
  let a1 ← asppPartShape in_channels (in_channels / 2) 3 1 1 1 a
  let a2 := interpolateShape (a1.h * 2) (a1.w * 2) a1
  let a3 ← asppPartShape (in_channels / 2) (in_channels / 4) 3 1 1 1 a2
  some (interpolateShape (a3.h * 2) (a3.w * 2) a3)

/-- Shape semantics of `DecoderDistillation.forward` (`model_parts.py` lines
255-272), for a `DecoderDistillation(in_channels, num_out_ch)` module: the
stages of `preProjShape` followed by the final projection `conv3x3_final3`
(3x3, padding 1, `in_channels // 4 → num_out_ch`, no batch norm). -/
def DecoderDistillation.forwardShape (in_channels num_out_ch : Nat)
    (features_low features_sa : Shape4) : Option Shape4 :=
  (DecoderDistillation.preProjShape in_channels features_low features_sa).bind
    (conv2dShape (in_channels / 4) num_out_ch 3 1 1 1)

/-- Dataflow expressions: which tensor of `DecoderDeeplabV3p.forward`
(`model_parts.py` lines 141-156) flows where. Each constructor records one
operation of the forward pass applied to its argument expressions. -/
inductive FExpr where
  /-- a forward-pass input -/
  | var : Nat → FExpr
  /-- the resize `F.interpolate(a, size=b.shape[2:], mode='bilinear', align_corners=False)` -/
  | interpolateToSizeOf : FExpr → FExpr → FExpr
  /-- the `conv1x1_skip` sequential block (1x1 conv + batch norm + ReLU) -/
  | conv1x1_skip : FExpr → FExpr
  /-- the concatenation `torch.cat([a, b], dim=1)` -/
  | cat2 : FExpr → FExpr → FExpr
  /-- the `conv3x3_final` sequential block (3x3 conv + batch norm + ReLU) -/
  | conv3x3_final : FExpr → FExpr
  /-- the `features_to_predictions` convolution (3x3, no padding) -/
  | features_to_predictions : FExpr → FExpr
deriving DecidableEq, Repr

/-- Dataflow semantics of `DecoderDeeplabV3p.forward` (`model_parts.py` lines
141-156): resize the bottleneck to the skip's spatial size, reduce the skip
through `conv1x1_skip`, concatenate, fuse through `conv3x3_final`, project
through `features_to_predictions`; return the pair
`(predictions, features_bottleneck_4x)`. -/
def DecoderDeeplabV3p.forwardE (features_bottleneck features_skip_4x : FExpr) :
    FExpr × FExpr :=
  let features_bottleneck_4x :=
    FExpr.interpolateToSizeOf features_bottleneck features_skip_4x
  let features_skip_4x_reduced := FExpr.conv1x1_skip features_skip_4x
  let feature_cat := FExpr.cat2 features_bottleneck_4x features_skip_4x_reduced
  let feature_cat2 := FExpr.conv3x3_final feature_cat
  let predictions := FExpr.features_to_predictions feature_cat2
  (predictions, features_bottleneck_4x)

/-- Modelled from the spec's words (for comparison with the source): "the
fused pre-projection feature tensor, i.e. the tensor produced by the 3x3
conv+norm+activation fusion stage applied to the concatenation of the resized
bottleneck and the reduced skip (the tensor fed to the final projection
convolution)". -/
def fusedPreProjection (features_bottleneck features_skip_4x : FExpr) : FExpr :=
  FExpr.conv3x3_final
    (FExpr.cat2 (FExpr.interpolateToSizeOf features_bottleneck features_skip_4x)
      (FExpr.conv1x1_skip features_skip_4x))

/-- A 4D tensor (batch, channels, height, width) of exact real values. -/
def Tensor4 (n c h w : Nat) : Type := Fin n → Fin c → Fin h → Fin w → ℝ

/-- Read a spatial position of a tensor with zero padding outside the valid
range (the implicit padding of `torch.nn.Conv2d(..., padding=1)`). -/
def padGet {n c h w : Nat} (x : Tensor4 n c h w) (b : Fin n) (ch : Fin c)
    (i j : Int) : ℝ :=
  if hij : 0 ≤ i ∧ i < (h : Int) ∧ 0 ≤ j ∧ j < (w : Int) then
    x b ch ⟨i.toNat, by omega⟩ ⟨j.toNat, by omega⟩
  else 0

/-- Value semantics of `torch.nn.Conv2d(cin, cout, 3, padding=1, bias=False)`
applied to a 4D input: a cross-correlation with a (cout, cin, 3, 3) weight
tensor and zero padding of one pixel on each side. -/
noncomputable def conv3x3p1 {cin cout n h w : Nat}
    (weight : Fin cout → Fin cin → Fin 3 → Fin 3 → ℝ)
    (x : Tensor4 n cin h w) : Tensor4 n cout h w :=
  fun b o i j =>
    ∑ ch : Fin cin, ∑ ki : Fin 3, ∑ kj : Fin 3,
      weight o ch ki kj *
        padGet x b ch ((i : Int) + (ki : Int) - 1) ((j : Int) + (kj : Int) - 1)

/-- The logistic sigmoid `torch.sigmoid`. -/
noncomputable def sigmoid (t : ℝ) : ℝ := 1 / (1 + Real.exp (-t))

/-- The state of a `SelfAttention(in_channels, out_channels)` module
(`model_parts.py` lines 198-209): the weights of its two 3x3 convolutions
`conv` and `attention` (both `padding=1, bias=False`). -/
structure SelfAttention (cin cout : Nat) where
  conv_weight : Fin cout → Fin cin → Fin 3 → Fin 3 → ℝ
  attention_weight : Fin cout → Fin cin → Fin 3 → Fin 3 → ℝ

/-- Value semantics of `SelfAttention.__init__` (`model_parts.py` lines
199-204): both convolutions are created with framework-supplied initial
weights (`conv_init`, `attention_init`), then
`self.attention.weight.copy_(torch.zeros_like(self.attention.weight))`
overwrites the gating convolution's weights with zeros. -/
def SelfAttention.init {cin cout : Nat}
    (conv_init attention_init : Fin cout → Fin cin → Fin 3 → Fin 3 → ℝ) :
    SelfAttention cin cout :=
  { conv_weight := conv_init, attention_weight := fun _ _ _ _ => 0 }

/-- Value semantics of `SelfAttention.forward` (`model_parts.py` lines
206-209): `self.conv(x) * torch.sigmoid(self.attention(x))`, elementwise. -/
noncomputable def SelfAttention.forward {cin cout n h w : Nat}
    (m : SelfAttention cin cout) (x : Tensor4 n cin h w) : Tensor4 n cout h w :=
  fun b o i j =>
    conv3x3p1 m.conv_weight x b o i j *
      sigmoid (conv3x3p1 m.attention_weight x b o i j)

/-- A feature tensor of the encoder's pyramid, abstracted to an identifier
(which stage produced it) and its width `x.shape[3]`. -/
structure Feat where
  id : Nat
  width : Nat
deriving DecidableEq, Repr

/-- Python dict assignment `skips[scale] = x` on an insertion-ordered
dictionary: replace the value in place when the key is present (a dict holds
each key at most once), otherwise append the new entry at the end. -/
def dictSet : List (Nat × Feat) → Nat → Feat → List (Nat × Feat)
  | [], k, v => [(k, v)]
  | p :: d, k, v => if p.1 = k then (k, v) :: d else p :: dictSet d k v

/-- Python dict lookup `skips[scale]` (the first — and with distinct keys
the only — entry with the given key). -/
def dictGet (d : List (Nat × Feat)) (k : Nat) : Option Feat :=
  (d.find? (fun p => p.1 == k)).map Prod.snd

/-- Model of `Encoder.update_skip_dict` (`model_parts.py` lines 84-87):
`rem, scale = sz_in % x.shape[3], sz_in // x.shape[3]; assert rem == 0;
skips[scale] = x`. The failed assertion is modelled as `none`. -/
def Encoder.update_skip_dict (skips : List (Nat × Feat)) (x : Feat)
    (sz_in : Nat) : Option (List (Nat × Feat)) :=
  if sz_in % x.width = 0 then
    some (dictSet skips (sz_in / x.width) x)
  else
    none

/-- Model of `Encoder.forward` (`model_parts.py` lines 89-118) at the level of the
skip dictionary: starting from `out = {1: x}` with `sz_in = x.shape[3]`, the
successive stage outputs (stem, maxpool, layer1 .. layer4, abstracted to the
list `stages` of feature tensors) are each inserted with
`update_skip_dict`. -/
def Encoder.forwardSkips (x : Feat) (stages : List Feat) :
    Option (List (Nat × Feat)) :=
  stages.foldlM (fun out s => Encoder.update_skip_dict out s x.width) [(1, x)]

/-- The last element of the list satisfying the predicate, if any (the
deepest stage whose tensor was stored under a given scale key). -/
def lastWrite (p : Feat → Bool) : List Feat → Option Feat
  | [] => none
  | t :: ts =>
    match lastWrite p ts with
    | some u => some u
    | none => if p t then some t else none

/-- Model of `sum(outputs_desc.values())` (`model_attention.py` line 12): total output
channel count of an ordered task-name → channel-count mapping. -/
def sumChannels (outputs_desc : List (String × Nat)) : Nat :=
  (outputs_desc.map Prod.snd).sum

/-- The channel-split loop of `ModelDeepLabV3PlusBranchedSA.forward`
(`model_attention.py` lines 70-77) on the channel axis: for each task of
`outputs_desc` in iteration order, take the channel slice
`[:, offset:offset+num_ch, :, :]` of the concatenated intermediate and final
prediction tensors (channel axes modelled as lists; a Python slice is
`drop offset` then `take num_ch`, with the same clamping behaviour) and
advance the offset. -/
def ModelDeepLabV3PlusBranchedSA.splitOutputs {α : Type}
    (outputs_desc : List (String × Nat)) (offset : Nat)
    (intermediate_predictions final_predictions : List α) :
    List (String × (List α × List α)) :=
  match outputs_desc with
  | [] => []
  | (task, num_ch) :: rest =>
      (task, ((intermediate_predictions.drop offset).take num_ch,
              (final_predictions.drop offset).take num_ch)) ::
      ModelDeepLabV3PlusBranchedSA.splitOutputs rest (offset + num_ch)
        intermediate_predictions final_predictions

/-- The state built by `ModelDeepLabV3PlusBranchedSA.__init__`
(`model_attention.py` lines 8-34), abstracted to the stored `outputs_desc`
and the output channel counts the submodules are constructed with. -/
structure ModelDeepLabV3PlusBranchedSA where
  outputs_desc : List (String × Nat)
  ch_out : Nat
  decoder_semseg_out_ch : Nat
  decoder_depth_out_ch : Nat
  decoder_semseg2_out_ch : Nat
  decoder_depth2_out_ch : Nat
deriving DecidableEq, Repr

/-- Model of `ModelDeepLabV3PlusBranchedSA.__init__` (`model_attention.py` lines
8-34): stores `outputs_desc`, computes `ch_out = sum(outputs_desc.values())`
(line 12), and constructs the submodules — `decoder_semseg` and
`decoder_semseg2` with `ch_out - 1` output channels, `decoder_depth` and
`decoder_depth2` with 1 (lines 25, 28, 33, 34). The constructor body contains
no validation of `outputs_desc`; the only failure path is inside torch, where
`ch_out = 0` makes `ch_out - 1` a negative channel count and tensor
allocation for the convolution weights raises. -/
def ModelDeepLabV3PlusBranchedSA.init (outputs_desc : List (String × Nat)) :
    Option ModelDeepLabV3PlusBranchedSA :=
  if sumChannels outputs_desc = 0 then
    none
  else
    some ⟨outputs_desc, sumChannels outputs_desc,
      sumChannels outputs_desc - 1, 1, sumChannels outputs_desc - 1, 1⟩

lemma convOutDim_k1 (size p : Nat) (h : 1 ≤ size + 2 * p) :
    convOutDim size 1 1 p 1 = some (size + 2 * p) := by
  unfold convOutDim
  rw [if_pos (by omega)]
  congr 1
  omega

lemma convOutDim_k3_same (size r : Nat) (hs : 1 ≤ size) (hr : 1 ≤ r) :
    convOutDim size 3 1 r r = some size := by
  unfold convOutDim
  rw [if_pos (by omega)]
  congr 1
  omega

lemma asppPartShape_k1 (cin cout p n c h w : Nat) (hc : c = cin)
    (hh : 1 ≤ h + 2 * p) (hw : 1 ≤ w + 2 * p) :
    asppPartShape cin cout 1 1 p 1 ⟨n, c, h, w⟩ =
      some ⟨n, cout, h + 2 * p, w + 2 * p⟩ := by
  simp [asppPartShape, conv2dShape, convOutDim_k1 _ _ hh, convOutDim_k1 _ _ hw,
    batchNorm2dShape, hc]

lemma asppPartShape_k3_same (cin cout r n h w : Nat) (hh : 1 ≤ h) (hw : 1 ≤ w)
    (hr : 1 ≤ r) :
    asppPartShape cin cout 3 1 r r ⟨n, cin, h, w⟩ = some ⟨n, cout, h, w⟩ := by
  simp [asppPartShape, conv2dShape, convOutDim_k3_same _ _ hh hr,
    convOutDim_k3_same _ _ hw hr, batchNorm2dShape]

/-- C6: for every 4D input of shape (N, in_channels, h, w) with nonempty
spatial extent and every valid rate triple, `ASPP.forward` returns a tensor
of shape (N, out_channels, h, w): the spatial size is preserved and the
channel count equals `out_channels`. -/
theorem aspp_forward_shape (n cin cout r1 r2 r3 h w : Nat)
    (hh : 1 ≤ h) (hw : 1 ≤ w) (h1 : 1 ≤ r1) (h2 : 1 ≤ r2) (h3 : 1 ≤ r3) :
    ASPP.forwardShape cin cout r1 r2 r3 ⟨n, cin, h, w⟩ =
      some ⟨n, cout, h, w⟩ := by
  have e1 := asppPartShape_k1 cin cout 0 n cin h w rfl (by omega) (by omega)
  have e2 := asppPartShape_k3_same cin cout r1 n h w hh hw h1
  have e3 := asppPartShape_k3_same cin cout r2 n h w hh hw h2
  have e4 := asppPartShape_k3_same cin cout r3 n h w hh hw h3
  have e5 : avgPool2dShape h w 1 1 ⟨n, cin, h, w⟩ = some ⟨n, cin, 1, 1⟩ := by
    simp [avgPool2dShape, hh, hw]
  have e6 := asppPartShape_k1 cin cout 1 n cin 1 1 rfl (by omega) (by omega)
  have e7 := asppPartShape_k1 (cout * 5) cout 0 n
    (cout + cout + cout + cout + cout) h w (by ring) (by omega) (by omega)
  simp only [ASPP.forwardShape, e1, e2, e3, e4, e5, e6, e7, interpolateShape,
    catChannels, Option.bind, Nat.mul_zero, Nat.add_zero, Nat.mul_one]
  simp [catChannels, e6, e7]

/-- C6 witness: `ASPP(2, 3)` with the default rates (3, 6, 9) on an input of
shape (1, 2, 5, 7) yields shape (1, 3, 5, 7). -/
theorem aspp_forward_shape_witness :
    ASPP.forwardShape 2 3 3 6 9 ⟨1, 2, 5, 7⟩ = some ⟨1, 3, 5, 7⟩ :=
  aspp_forward_shape 1 2 3 3 6 9 5 7 (by decide) (by decide) (by decide)
    (by decide) (by decide)

lemma conv2dShape_k3_p1 (cin cout n c h w : Nat) (hc : c = cin) (hh : 1 ≤ h)
    (hw : 1 ≤ w) :
    conv2dShape cin cout 3 1 1 1 ⟨n, c, h, w⟩ = some ⟨n, cout, h, w⟩ := by
  simp [conv2dShape, convOutDim_k3_same _ _ hh (le_refl 1),
    convOutDim_k3_same _ _ hw (le_refl 1), hc]

lemma broadcastShape_self (s : Shape4) : broadcastShape s s = some s := by
  simp [broadcastShape, broadcastDim]

/-- C9: for every 4D input with `in_channels` channels and nonempty spatial
size (h, w), `SelfAttention.forward` returns a tensor with `out_channels`
channels and the same spatial size (h, w), because both the feature-projection
and gating convolutions are 3x3 with padding 1. -/
theorem selfattention_forward_shape (cin cout n h w : Nat) (hh : 1 ≤ h)
    (hw : 1 ≤ w) :
    SelfAttention.forwardShape cin cout ⟨n, cin, h, w⟩ =
      some ⟨n, cout, h, w⟩ := by
  simp [SelfAttention.forwardShape, conv2dShape_k3_p1 cin cout n cin h w rfl hh hw,
    broadcastShape_self]

/-- C9 witness: `SelfAttention(4, 7)` on an input of shape (2, 4, 5, 6)
yields shape (2, 7, 5, 6). -/
theorem selfattention_forward_shape_witness :
    SelfAttention.forwardShape 4 7 ⟨2, 4, 5, 6⟩ = some ⟨2, 7, 5, 6⟩ :=
  selfattention_forward_shape 4 7 2 5 6 (by decide) (by decide)

lemma asppPartShape_k3_p1 (cin cout n c h w : Nat) (hc : c = cin) (hh : 1 ≤ h)
    (hw : 1 ≤ w) :
    asppPartShape cin cout 3 1 1 1 ⟨n, c, h, w⟩ = some ⟨n, cout, h, w⟩ := by
  simp [asppPartShape, conv2dShape_k3_p1 cin cout n c h w hc hh hw,
    batchNorm2dShape]

lemma decoderdistillation_preproj_shape (cin n h w : Nat) (hh : 1 ≤ h)
    (hw : 1 ≤ w) :
    DecoderDistillation.preProjShape cin ⟨n, cin, h, w⟩ ⟨n, cin, h, w⟩ =
      some ⟨n, cin / 4, 4 * h, 4 * w⟩ := by
  have e1 := broadcastShape_self (⟨n, cin, h, w⟩ : Shape4)
  have e2 := asppPartShape_k3_p1 cin (cin / 2) n cin h w rfl hh hw
  have e3 := asppPartShape_k3_p1 (cin / 2) (cin / 4) n (cin / 2) (h * 2) (w * 2)
    rfl (by omega) (by omega)
  simp [DecoderDistillation.preProjShape, e1, e2, e3, interpolateShape,
    Shape4.mk.injEq]
  omega

/-- C7: for every pair of equal-shaped inputs with `in_channels` channels and
nonempty spatial size (h, w), `DecoderDistillation.forward` returns a tensor
of spatial size (4h, 4w) with exactly `num_out_ch` channels, and the tensor
fed to the final projection has `in_channels / 4` channels (channel width
reduced 4x) at spatial size (4h, 4w). -/
theorem decoderdistillation_forward_shape (cin k n h w : Nat) (hh : 1 ≤ h)
    (hw : 1 ≤ w) :
    DecoderDistillation.forwardShape cin k ⟨n, cin, h, w⟩ ⟨n, cin, h, w⟩ =
      some ⟨n, k, 4 * h, 4 * w⟩ ∧
    DecoderDistillation.preProjShape cin ⟨n, cin, h, w⟩ ⟨n, cin, h, w⟩ =
      some ⟨n, cin / 4, 4 * h, 4 * w⟩ := by
  have ep := decoderdistillation_preproj_shape cin n h w hh hw
  refine ⟨?_, ep⟩
  simp [DecoderDistillation.forwardShape, ep,
    conv2dShape_k3_p1 (cin / 4) k n (cin / 4) (4 * h) (4 * w) rfl (by omega)
      (by omega)]

/-- C7 witness: `DecoderDistillation(256, 19)` on two inputs of shape
(1, 256, 3, 5) yields shape (1, 19, 12, 20), with 64 = 256/4 channels before
the final projection. -/
theorem decoderdistillation_forward_shape_witness :
    DecoderDistillation.forwardShape 256 19 ⟨1, 256, 3, 5⟩ ⟨1, 256, 3, 5⟩ =
      some ⟨1, 19, 12, 20⟩ ∧
    DecoderDistillation.preProjShape 256 ⟨1, 256, 3, 5⟩ ⟨1, 256, 3, 5⟩ =
      some ⟨1, 64, 12, 20⟩ :=
  decoderdistillation_forward_shape 256 19 1 3 5 (by decide) (by decide)

lemma broadcastDim_cond_of_some (x y z : Nat) (h : broadcastDim x y = some z) :
    x = y ∨ x = 1 ∨ y = 1 := by
  unfold broadcastDim at h
  split_ifs at h <;> simp_all

lemma broadcastShape_none_of_not_broadcastable (a b : Shape4)
    (h : ¬ Broadcastable a b) : broadcastShape a b = none := by
  rcases hn : broadcastDim a.n b.n with _ | vn
  · simp [broadcastShape, hn]
  · rcases hc : broadcastDim a.c b.c with _ | vc
    · simp [broadcastShape, hn, hc]
    · rcases hh : broadcastDim a.h b.h with _ | vh
      · simp [broadcastShape, hn, hc, hh]
      · rcases hw : broadcastDim a.w b.w with _ | vw
        · simp [broadcastShape, hn, hc, hh, hw]
        · exact absurd ⟨broadcastDim_cond_of_some _ _ _ hn,
            broadcastDim_cond_of_some _ _ _ hc,
            broadcastDim_cond_of_some _ _ _ hh,
            broadcastDim_cond_of_some _ _ _ hw⟩ h

/-- C3 counterexample: `DecoderDistillation(256, 1)` on the mismatched (but
broadcastable) input shapes (1, 256, 1, 4) and (1, 256, 4, 4) does not fail:
the elementwise addition silently broadcasts and the forward pass returns a
tensor of shape (1, 1, 16, 16). There is no shape assertion in
`DecoderDistillation.forward`. -/
theorem decoderdistillation_mismatch_accepted :
    (⟨1, 256, 1, 4⟩ : Shape4) ≠ ⟨1, 256, 4, 4⟩ ∧
    DecoderDistillation.forwardShape 256 1 ⟨1, 256, 1, 4⟩ ⟨1, 256, 4, 4⟩ =
      some ⟨1, 1, 16, 16⟩ := by
  constructor
  · decide
  · rfl

/-- C3 amended: `DecoderDistillation.forward` contains no shape assertion;
it fails at the elementwise addition `features_low + features_sa` exactly
when the two shapes are not broadcast-compatible, while mismatched but
broadcastable shapes are silently broadcast and produce an output. -/
theorem decoderdistillation_nonbroadcastable_fails (cin k : Nat)
    (a b : Shape4) (h : ¬ Broadcastable a b) :
    DecoderDistillation.forwardShape cin k a b = none := by
  have hb := broadcastShape_none_of_not_broadcastable a b h
  simp [DecoderDistillation.forwardShape, DecoderDistillation.preProjShape, hb]

/-- C3 amended witness: inputs of shapes (1, 256, 3, 4) and (1, 256, 5, 4)
(heights 3 and 5, neither 1) are not broadcast-compatible and the forward
pass fails. -/
theorem decoderdistillation_nonbroadcastable_fails_witness :
    DecoderDistillation.forwardShape 256 1 ⟨1, 256, 3, 4⟩ ⟨1, 256, 5, 4⟩ =
      none :=
  decoderdistillation_nonbroadcastable_fails 256 1 ⟨1, 256, 3, 4⟩
    ⟨1, 256, 5, 4⟩ (by decide)

/-- C2 counterexample: on inputs `var 0` (bottleneck) and `var 1` (skip),
the second result of `DecoderDeeplabV3p.forward` is not the fused
pre-projection tensor: the code returns `features_bottleneck_4x`, the
bilinearly-resized bottleneck computed before the fusion stage. -/
theorem decoder_second_result_not_fused :
    (DecoderDeeplabV3p.forwardE (FExpr.var 0) (FExpr.var 1)).2 ≠
      fusedPreProjection (FExpr.var 0) (FExpr.var 1) := by
  decide

/-- C2 amended: for every pair of inputs, `DecoderDeeplabV3p.forward` returns
as its first result the prediction obtained by applying the final projection
convolution to the fused pre-projection tensor, and as its second result the
bilinearly-resized bottleneck tensor `features_bottleneck_4x` — an
intermediate computed before the skip fusion — not the fused pre-projection
tensor. -/
theorem decoder_forward_results (fb fs : FExpr) :
    DecoderDeeplabV3p.forwardE fb fs =
      (FExpr.features_to_predictions (fusedPreProjection fb fs),
        FExpr.interpolateToSizeOf fb fs) :=
  rfl

lemma sigmoid_zero : sigmoid 0 = 1 / 2 := by
  simp [sigmoid, Real.exp_zero]
  norm_num

lemma conv3x3p1_zero_weight {cin cout n h w : Nat} (x : Tensor4 n cin h w)
    (b : Fin n) (o : Fin cout) (i : Fin h) (j : Fin w) :
    conv3x3p1 (fun _ _ _ _ => (0 : ℝ)) x b o i j = 0 := by
  simp [conv3x3p1]

/-- C4: immediately after `SelfAttention.__init__` completes, every weight of
the gating convolution `self.attention` is exactly zero, and consequently,
before any training update, `SelfAttention.forward(x)` equals exactly
`0.5 * self.conv(x)` (the feature-projection branch's output) at every index
of every input x. -/
theorem selfattention_init_zero_gate {cin cout n h w : Nat}
    (conv_init attention_init : Fin cout → Fin cin → Fin 3 → Fin 3 → ℝ)
    (x : Tensor4 n cin h w) :
    (∀ o ch ki kj,
      (SelfAttention.init conv_init attention_init).attention_weight o ch ki kj
        = 0) ∧
    (∀ (b : Fin n) (o : Fin cout) (i : Fin h) (j : Fin w),
      (SelfAttention.init conv_init attention_init).forward x b o i j =
        (1 / 2) * conv3x3p1 conv_init x b o i j) := by
  refine ⟨fun _ _ _ _ => rfl, fun b o i j => ?_⟩
  show conv3x3p1 conv_init x b o i j *
      sigmoid (conv3x3p1 (fun _ _ _ _ => 0) x b o i j) = _
  rw [conv3x3p1_zero_weight, sigmoid_zero]
  ring

/-- C8: each insertion into the encoder's pyramid stores the tensor under the
scale key `sz_in / x.shape[3]`, asserting that the division is exact:
the forward pass fails fatally (`none`) exactly when the input width is not
evenly divisible by the tensor's width, and under the divisibility
precondition the assertion never fires. -/
theorem update_skip_dict_spec (skips : List (Nat × Feat)) (x : Feat)
    (sz_in : Nat) (hw : 0 < x.width) :
    (Encoder.update_skip_dict skips x sz_in = none ↔ ¬ x.width ∣ sz_in) ∧
    (x.width ∣ sz_in →
      Encoder.update_skip_dict skips x sz_in =
        some (dictSet skips (sz_in / x.width) x)) := by
  have hmod : sz_in % x.width = 0 ↔ x.width ∣ sz_in :=
    Nat.dvd_iff_mod_eq_zero.symm
  by_cases h : sz_in % x.width = 0
  · rw [Encoder.update_skip_dict, if_pos h]
    exact ⟨⟨fun hn => (Option.some_ne_none _ hn).elim,
      fun hnd => absurd (hmod.mp h) hnd⟩, fun _ => rfl⟩
  · rw [Encoder.update_skip_dict, if_neg h]
    exact ⟨⟨fun _ hd => h (hmod.mpr hd), fun _ => rfl⟩,
      fun hd => absurd (hmod.mpr hd) h⟩

/-- C8 witness: inserting a tensor of width 8 with input width 32 succeeds
and stores it under scale key 4; the hypotheses are discharged at this
concrete input. -/
theorem update_skip_dict_spec_witness :
    Encoder.update_skip_dict [] ⟨0, 8⟩ 32 = some [(4, ⟨0, 8⟩)] := by
  have h := (update_skip_dict_spec [] ⟨0, 8⟩ 32 (by decide)).2 ⟨4, by decide⟩
  simpa [dictSet] using h

lemma dictGet_dictSet_self (d : List (Nat × Feat)) (k : Nat) (v : Feat) :
    dictGet (dictSet d k v) k = some v := by
  induction d with
  | nil => simp [dictSet, dictGet]
  | cons p d ih =>
    by_cases hp : p.1 = k
    · simp [dictSet, dictGet, hp]
    · simpa [dictSet, dictGet, hp] using ih

lemma dictGet_dictSet_other (d : List (Nat × Feat)) (k k' : Nat) (v : Feat)
    (hne : k' ≠ k) : dictGet (dictSet d k v) k' = dictGet d k' := by
  have hk : ¬ k = k' := fun hc => hne hc.symm
  induction d with
  | nil => simp [dictSet, dictGet, hk]
  | cons p d ih =>
    by_cases hp : p.1 = k
    · have hp' : ¬ p.1 = k' := fun hc => hne (by rw [← hc]; exact hp)
      simp [dictSet, dictGet, hp, hp', hk, hne]
    · by_cases hq : p.1 = k'
      · simp [dictSet, dictGet, hp, hq, hne]
      · simpa [dictSet, dictGet, hp, hq, hne] using ih

lemma mem_keys_dictSet (d : List (Nat × Feat)) (k : Nat) (v : Feat) (a : Nat)
    (h : a ∈ (dictSet d k v).map Prod.fst) :
    a = k ∨ a ∈ d.map Prod.fst := by
  induction d with
  | nil => simpa [dictSet] using h
  | cons p d ih =>
    by_cases hp : p.1 = k
    · simpa [dictSet, hp] using h
    · rcases (by simpa [dictSet, hp] using h : a = p.1 ∨
        a ∈ (dictSet d k v).map Prod.fst) with ha | ha
      · exact Or.inr (by simp [ha])
      · rcases ih ha with ha' | ha'
        · exact Or.inl ha'
        · exact Or.inr (by simp [ha'])

lemma dictSet_keys_nodup (d : List (Nat × Feat)) (k : Nat) (v : Feat)
    (h : (d.map Prod.fst).Nodup) :
    ((dictSet d k v).map Prod.fst).Nodup := by
  induction d with
  | nil => simp [dictSet]
  | cons p d ih =>
    rw [List.map_cons] at h
    rcases List.nodup_cons.mp h with ⟨hnot, hnd⟩
    by_cases hp : p.1 = k
    · rw [show dictSet (p :: d) k v = (k, v) :: d by simp [dictSet, hp],
        List.map_cons]
      exact List.nodup_cons.mpr ⟨hp ▸ hnot, hnd⟩
    · have hmem : p.1 ∉ (dictSet d k v).map Prod.fst := by
        intro hc
        rcases mem_keys_dictSet d k v p.1 hc with hc' | hc'
        · exact hp hc'
        · exact hnot hc'
      rw [show dictSet (p :: d) k v = p :: dictSet d k v by simp [dictSet, hp],
        List.map_cons]
      exact List.nodup_cons.mpr ⟨hmem, ih hnd⟩

lemma foldl_update_dictGet (sz : Nat) (stages : List Feat) :
    ∀ (d0 d : List (Nat × Feat)),
      stages.foldlM (fun out s => Encoder.update_skip_dict out s sz) d0
        = some d →
      ∀ s : Nat,
        dictGet d s =
          match lastWrite (fun t => sz / t.width == s) stages with
          | some t => some t
          | none => dictGet d0 s := by
  induction stages with
  | nil =>
    intro d0 d h s
    have hd : d0 = d := by simpa [List.foldlM] using h
    simp [lastWrite, hd]
  | cons t ts ih =>
    intro d0 d h s
    cases hu : Encoder.update_skip_dict d0 t sz with
    | none => simp [List.foldlM, hu] at h
    | some d1 =>
      have h' : ts.foldlM (fun out s => Encoder.update_skip_dict out s sz) d1
          = some d := by
        simpa [List.foldlM, hu] using h
      have hd1 : d1 = dictSet d0 (sz / t.width) t := by
        unfold Encoder.update_skip_dict at hu
        split_ifs at hu with hc
        exact (Option.some_inj.mp hu).symm
      have hrec := ih d1 d h' s
      cases hlw : lastWrite (fun u => sz / u.width == s) ts with
      | some u =>
        rw [hlw] at hrec
        simpa [lastWrite, hlw] using hrec
      | none =>
        rw [hlw] at hrec
        by_cases hts : sz / t.width = s
        · have : dictGet d1 s = some t := by
            rw [hd1, hts]
            exact dictGet_dictSet_self d0 s t
          simpa [lastWrite, hlw, hts] using hrec.trans this
        · have : dictGet d1 s = dictGet d0 s := by
            rw [hd1]
            exact dictGet_dictSet_other d0 (sz / t.width) s t
              (fun hc => hts hc.symm)
          simpa [lastWrite, hlw, hts] using hrec.trans this

lemma foldl_update_nodup (sz : Nat) (stages : List Feat) :
    ∀ (d0 d : List (Nat × Feat)),
      (d0.map Prod.fst).Nodup →
      stages.foldlM (fun out s => Encoder.update_skip_dict out s sz) d0
        = some d →
      (d.map Prod.fst).Nodup := by
  induction stages with
  | nil =>
    intro d0 d h0 h
    have hd : d0 = d := by simpa [List.foldlM] using h
    exact hd ▸ h0
  | cons t ts ih =>
    intro d0 d h0 h
    cases hu : Encoder.update_skip_dict d0 t sz with
    | none => simp [List.foldlM, hu] at h
    | some d1 =>
      have h' : ts.foldlM (fun out s => Encoder.update_skip_dict out s sz) d1
          = some d := by
        simpa [List.foldlM, hu] using h
      have hd1 : d1 = dictSet d0 (sz / t.width) t := by
        unfold Encoder.update_skip_dict at hu
        split_ifs at hu with hc
        exact (Option.some_inj.mp hu).symm
      exact ih d1 d (hd1 ▸ dictSet_keys_nodup d0 (sz / t.width) t h0) h'

/-- C10: when the encoder's forward pass succeeds, the returned pyramid never
contains two entries for one scale (its keys are distinct), and each scale
key maps to the tensor of the deepest (latest) stage stored under that scale
— a later stage at the same downscale factor (as happens under
stride-with-dilation replacement) overwrites the earlier one — falling back
to the initial `{1: input}` entry for scales no stage wrote. -/
theorem encoder_forward_skips_deepest (x : Feat) (stages : List Feat)
    (d : List (Nat × Feat)) (h : Encoder.forwardSkips x stages = some d) :
    (d.map Prod.fst).Nodup ∧
    ∀ s : Nat,
      dictGet d s =
        match lastWrite (fun t => x.width / t.width == s) stages with
        | some t => some t
        | none => dictGet [(1, x)] s := by
  constructor
  · exact foldl_update_nodup x.width stages [(1, x)] d (by simp) h
  · exact foldl_update_dictGet x.width stages [(1, x)] d h

/-- C10 witness: input of width 32, stages of widths 16, 16, 8 (the two
successive stages of width 16 both map to scale 2): the forward pass returns
`{1: input, 2: second-16-wide-stage, 4: 8-wide-stage}`; the deeper stage
overwrote the earlier one under scale 2 and the keys are distinct. -/
theorem encoder_forward_skips_deepest_witness :
    dictGet [(1, ⟨0, 32⟩), (2, ⟨2, 16⟩), (4, ⟨3, 8⟩)] 2 = some ⟨2, 16⟩ ∧
    (([(1, (⟨0, 32⟩ : Feat)), (2, ⟨2, 16⟩), (4, ⟨3, 8⟩)]).map Prod.fst).Nodup := by
  have h := encoder_forward_skips_deepest ⟨0, 32⟩ [⟨1, 16⟩, ⟨2, 16⟩, ⟨3, 8⟩]
    [(1, ⟨0, 32⟩), (2, ⟨2, 16⟩), (4, ⟨3, 8⟩)] (by decide)
  exact ⟨(h.2 2).trans (by decide), h.1⟩

lemma splitOutputs_final_join {α : Type} (outputs_desc : List (String × Nat)) :
    ∀ (off : Nat) (inter final : List α),
      ((ModelDeepLabV3PlusBranchedSA.splitOutputs outputs_desc off inter
        final).map (fun p => p.2.2)).flatten
        = (final.drop off).take (sumChannels outputs_desc) := by
  induction outputs_desc with
  | nil =>
    intro off inter final
    simp [ModelDeepLabV3PlusBranchedSA.splitOutputs, sumChannels]
  | cons p rest ih =>
    intro off inter final
    rcases p with ⟨task, num_ch⟩
    have hsum : sumChannels ((task, num_ch) :: rest)
        = num_ch + sumChannels rest := by
      simp [sumChannels]
    rw [hsum]
    simp only [ModelDeepLabV3PlusBranchedSA.splitOutputs, List.map_cons,
      List.flatten_cons, ih]
    rw [List.take_add, List.drop_drop]

lemma splitOutputs_inter_join {α : Type} (outputs_desc : List (String × Nat)) :
    ∀ (off : Nat) (inter final : List α),
      ((ModelDeepLabV3PlusBranchedSA.splitOutputs outputs_desc off inter
        final).map (fun p => p.2.1)).flatten
        = (inter.drop off).take (sumChannels outputs_desc) := by
  induction outputs_desc with
  | nil =>
    intro off inter final
    simp [ModelDeepLabV3PlusBranchedSA.splitOutputs, sumChannels]
  | cons p rest ih =>
    intro off inter final
    rcases p with ⟨task, num_ch⟩
    have hsum : sumChannels ((task, num_ch) :: rest)
        = num_ch + sumChannels rest := by
      simp [sumChannels]
    rw [hsum]
    simp only [ModelDeepLabV3PlusBranchedSA.splitOutputs, List.map_cons,
      List.flatten_cons, ih]
    rw [List.take_add, List.drop_drop]

/-- C5: in `ModelDeepLabV3PlusBranchedSA.forward` the concatenated final
prediction tensor is `torch.cat((semseg, depth), 1)` — channel axis
`finalSem ++ finalDep` — where the construction (`model_attention.py` lines
25-34) gives the semantic-segmentation branch `ch_out - 1` channels and the
depth branch 1 channel, `ch_out = sum(outputs_desc.values())`; likewise for
the intermediate predictions. Concatenating the per-task slices produced by
the split loop in `outputs_desc` iteration order exactly reconstructs both
pre-split concatenated tensors. -/
theorem model_split_roundtrip {α : Type} (outputs_desc : List (String × Nat))
    (hsum : 1 ≤ sumChannels outputs_desc)
    (interSem interDep finalSem finalDep : List α)
    (his : interSem.length = sumChannels outputs_desc - 1)
    (hid : interDep.length = 1)
    (hfs : finalSem.length = sumChannels outputs_desc - 1)
    (hfd : finalDep.length = 1) :
    ((ModelDeepLabV3PlusBranchedSA.splitOutputs outputs_desc 0
        (interSem ++ interDep) (finalSem ++ finalDep)).map
        (fun p => p.2.2)).flatten = finalSem ++ finalDep ∧
    ((ModelDeepLabV3PlusBranchedSA.splitOutputs outputs_desc 0
        (interSem ++ interDep) (finalSem ++ finalDep)).map
        (fun p => p.2.1)).flatten = interSem ++ interDep := by
  have hflen : (finalSem ++ finalDep).length = sumChannels outputs_desc := by
    simp [hfs, hfd]
    omega
  have hilen : (interSem ++ interDep).length = sumChannels outputs_desc := by
    simp [his, hid]
    omega
  constructor
  · rw [splitOutputs_final_join, List.drop_zero, ← hflen, List.take_length]
  · rw [splitOutputs_inter_join, List.drop_zero, ← hilen, List.take_length]

/-- C5 witness: `outputs_desc = [("semseg", 19), ("depth", 1)]` with concrete
19-channel and 1-channel slices: the joined per-task slices reconstruct both
concatenated tensors. -/
theorem model_split_roundtrip_witness :
    ((ModelDeepLabV3PlusBranchedSA.splitOutputs
        [("semseg", 19), ("depth", 1)] 0
        (List.range 19 ++ [100]) ((List.range 19).map (· + 50) ++ [999])).map
        (fun p => p.2.2)).flatten = (List.range 19).map (· + 50) ++ [999] ∧
    ((ModelDeepLabV3PlusBranchedSA.splitOutputs
        [("semseg", 19), ("depth", 1)] 0
        (List.range 19 ++ [100]) ((List.range 19).map (· + 50) ++ [999])).map
        (fun p => p.2.1)).flatten = List.range 19 ++ [100] :=
  model_split_roundtrip [("semseg", 19), ("depth", 1)] (by decide)
    (List.range 19) [100] ((List.range 19).map (· + 50)) [999]
    (by decide) (by decide) (by decide) (by decide)

/-- C1 counterexample: the malformed three-task
`outputs_desc = {"a": 10, "b": 5, "c": 5}` (three entries, not two) is
accepted silently by `ModelDeepLabV3PlusBranchedSA.__init__`: construction
succeeds, refuting that every malformed `outputs_desc` fails immediately and
fatally at construction. -/
theorem model_init_accepts_malformed :
    ([("a", 10), ("b", 5), ("c", 5)] : List (String × Nat)).length ≠ 2 ∧
    (ModelDeepLabV3PlusBranchedSA.init
      [("a", 10), ("b", 5), ("c", 5)]).isSome = true := by
  exact ⟨by decide, rfl⟩

/-- C1 amended: `ModelDeepLabV3PlusBranchedSA.__init__` performs no
validation of `outputs_desc`: every mapping whose channel counts sum to at
least 1 — regardless of how many task entries it has — is accepted at
construction, with the fixed split assigning `sum - 1` output channels to the
semantic-segmentation decoders and 1 to the depth decoders. -/
theorem model_init_no_validation (outputs_desc : List (String × Nat))
    (hsum : 1 ≤ sumChannels outputs_desc) :
    ModelDeepLabV3PlusBranchedSA.init outputs_desc =
      some ⟨outputs_desc, sumChannels outputs_desc,
        sumChannels outputs_desc - 1, 1, sumChannels outputs_desc - 1, 1⟩ := by
  unfold ModelDeepLabV3PlusBranchedSA.init
  rw [if_neg (by omega)]

/-- C1 amended witness: the well-formed two-task
`outputs_desc = [("semseg", 19), ("depth", 1)]` is accepted with a 19-channel
semantic-segmentation branch and a 1-channel depth branch. -/
theorem model_init_no_validation_witness :
    ModelDeepLabV3PlusBranchedSA.init [("semseg", 19), ("depth", 1)] =
      some ⟨[("semseg", 19), ("depth", 1)], 20, 19, 1, 19, 1⟩ :=
  model_init_no_validation [("semseg", 19), ("depth", 1)] (by decide)
